import Mathlib

/-
Verification of TheAlonso95/ai-dev-agent (Go).

Shallow embedding: Go strings are modelled as sequences of runes
(`List Nat`, each element a Unicode code point).  Pure string
manipulation (cmd/init.go, the issue/ error-text formatting in
internal/github/client.go, internal/openai/readme.go) is translated
directly; the HTTP layer is modelled by passing each handler the
response it would read (status code and raw body); the GitHub git-data
API (blobs, trees, commits, refs) is modelled as an explicit server
state threaded through the translated client functions
(internal/github/client.go: CreateBranchAndCommit,
InitializeRepoWithReadme and their helpers).
-/

namespace Agent

abbrev GoStr := List Nat

/-- Runes of a Lean string literal, used to write Go string constants. -/
def rOf (s : String) : GoStr := s.data.map Char.toNat

/-- The rune-wise action of Go's strings.ToLower on the ASCII range
(code points 65-90 map to 97-122; other runes are left unchanged). -/
def goLowerRune (c : Nat) : Nat := if 65 ≤ c ∧ c ≤ 90 then c + 32 else c

/-- strings.ToLower(name), rune-wise. -/
def goToLower (s : GoStr) : GoStr := s.map goLowerRune

/-- strings.ReplaceAll(s, " ", "-"): the old and new strings are single
runes, so the replacement acts rune-wise. -/
def replaceSpaceDash (s : GoStr) : GoStr := s.map (fun c => if c = 32 then 45 else c)

/-- cmd/init.go sanitizeRepoName: strings.ReplaceAll(strings.ToLower(name), " ", "-"). -/
def sanitizeRepoName (name : GoStr) : GoStr := replaceSpaceDash (goToLower name)

/-- cmd/init.go initCmd: projectName := sanitizeRepoName(repoName);
if projectName == "" then "ai-" + sanitizeRepoName(idea). -/
def initProjectName (nameFlag idea : GoStr) : GoStr :=
  let projectName := sanitizeRepoName nameFlag
  if projectName = [] then rOf "ai-" ++ sanitizeRepoName idea else projectName

/-- Whether p is an initial segment of s (rune-wise). -/
def startsWithL (p s : GoStr) : Bool :=
  match p, s with
  | [], _ => true
  | _ :: _, [] => false
  | a :: ps, b :: xs => a == b && startsWithL ps xs

/-- Executable substring test, as Go's strings.Contains. -/
def hasSubstr (p : GoStr) : GoStr → Bool
  | [] => startsWithL p []
  | x :: xs => startsWithL p (x :: xs) || hasSubstr p xs

/-- Number of positions of s at which p occurs (occurrences may overlap). -/
def countOcc (p : GoStr) : GoStr → Nat
  | [] => if startsWithL p [] then 1 else 0
  | x :: xs => (if startsWithL p (x :: xs) then 1 else 0) + countOcc p xs

/-- p occurs contiguously inside s. -/
def SubstrOf (p s : GoStr) : Prop := ∃ a b, s = a ++ p ++ b

theorem startsWithL_iff (p s : GoStr) : startsWithL p s = true ↔ ∃ t, s = p ++ t := by
  induction p generalizing s with
  | nil => simp [startsWithL]
  | cons a ps ih =>
    cases s with
    | nil => simp [startsWithL]
    | cons b xs =>
      simp only [startsWithL, Bool.and_eq_true, beq_iff_eq, ih]
      constructor
      · rintro ⟨rfl, t, rfl⟩; exact ⟨t, rfl⟩
      · rintro ⟨t, h⟩
        injection h with h1 h2
        exact ⟨h1.symm, t, h2⟩

theorem SubstrOf_iff_hasSubstr (p s : GoStr) : SubstrOf p s ↔ hasSubstr p s = true := by
  induction s with
  | nil =>
    simp only [hasSubstr, startsWithL_iff, SubstrOf]
    constructor
    · rintro ⟨a, b, h⟩
      have ha : a = [] := by cases a <;> simp_all
      have hp : p = [] := by subst ha; cases p <;> simp_all
      exact ⟨[], by simp [hp]⟩
    · rintro ⟨t, h⟩
      have hp : p = [] := by cases p <;> simp_all
      exact ⟨[], [], by simp [hp]⟩
  | cons x xs ih =>
    simp only [hasSubstr, Bool.or_eq_true, startsWithL_iff, ← ih, SubstrOf]
    constructor
    · rintro ⟨a, b, h⟩
      cases a with
      | nil => exact Or.inl ⟨b, by simpa using h⟩
      | cons y a' =>
        injection h with h1 h2
        exact Or.inr ⟨a', b, h2⟩
    · rintro (⟨t, h⟩ | ⟨a, b, h⟩)
      · exact ⟨[], t, by simpa using h⟩
      · exact ⟨x :: a, b, by simp [h]⟩

/-- The rune-wise transformation applied by sanitizeRepoName. -/
theorem sanitizeRepoName_eq_map (s : GoStr) :
    sanitizeRepoName s = s.map (fun c => if goLowerRune c = 32 then 45 else goLowerRune c) := by
  simp [sanitizeRepoName, goToLower, replaceSpaceDash, List.map_map, Function.comp]

theorem sanitizeRepoName_eq_nil_iff (s : GoStr) : sanitizeRepoName s = [] ↔ s = [] := by
  rw [sanitizeRepoName_eq_map]
  simp

/-- C3 counterexample: the --name flag value "My Repo" is provided, yet the
repository name becomes its slug "my-repo", not the flag value itself. -/
theorem initProjectName_not_flag_verbatim :
    initProjectName (rOf "My Repo") (rOf "idea") = rOf "my-repo" ∧
      rOf "my-repo" ≠ rOf "My Repo" := by
  constructor
  · decide
  · decide

/-- C3 amended: the repository name is sanitizeRepoName(--name) when the flag
value is non-empty, and "ai-" ++ sanitizeRepoName(idea) otherwise. -/
theorem initProjectName_spec (nameFlag idea : GoStr) :
    (nameFlag ≠ [] → initProjectName nameFlag idea = sanitizeRepoName nameFlag) ∧
      (nameFlag = [] → initProjectName nameFlag idea = rOf "ai-" ++ sanitizeRepoName idea) := by
  constructor
  · intro h
    have : ¬ sanitizeRepoName nameFlag = [] := fun hn =>
      h ((sanitizeRepoName_eq_nil_iff nameFlag).mp hn)
    simp [initProjectName, this]
  · intro h
    subst h
    simp [initProjectName, sanitizeRepoName, goToLower, replaceSpaceDash]

theorem substrOf_append_left (p s pre : GoStr) (h : SubstrOf p s) : SubstrOf p (pre ++ s) := by
  obtain ⟨a, b, rfl⟩ := h
  exact ⟨pre ++ a, b, by simp [List.append_assoc]⟩

theorem substrOf_append_right (p s post : GoStr) (h : SubstrOf p s) : SubstrOf p (s ++ post) := by
  obtain ⟨a, b, rfl⟩ := h
  exact ⟨a, b ++ post, by simp [List.append_assoc]⟩

theorem substrOf_of_substrOf_append (p q s : GoStr) (h : SubstrOf (p ++ q) s) : SubstrOf p s := by
  obtain ⟨a, b, rfl⟩ := h
  exact ⟨a, q ++ b, by simp [List.append_assoc]⟩

/-- A pattern holding no newline that occurs in body ++ "\n\n" already occurs in body. -/
theorem substrOf_body_of_append_newlines (p body : GoStr) (hp : p ≠ []) (hnl : (10 : Nat) ∉ p)
    (h : SubstrOf p (body ++ [10, 10])) : SubstrOf p body := by
  obtain ⟨a, b, hs⟩ := h
  have E := congrArg List.reverse hs
  simp only [List.reverse_append] at E
  rcases hb : b.reverse with _ | ⟨z₁, br⟩
  · rw [hb] at E
    rcases hpr : p.reverse with _ | ⟨q, pr⟩
    · exact absurd (List.reverse_eq_nil_iff.mp hpr) hp
    · rw [hpr] at E
      simp only [List.reverse_cons, List.reverse_nil, List.nil_append, List.cons_append,
        List.append_assoc] at E
      injection E with E1 _
      exact absurd (by rw [← List.mem_reverse, hpr, ← E1]; exact List.mem_cons_self _ _) hnl
  · rw [hb] at E
    simp only [List.reverse_cons, List.reverse_nil, List.nil_append, List.cons_append,
      List.append_assoc] at E
    injection E with _ E2
    rcases hbr : br with _ | ⟨z₂, br'⟩
    · rw [hbr] at E2
      rcases hpr : p.reverse with _ | ⟨q, pr⟩
      · exact absurd (List.reverse_eq_nil_iff.mp hpr) hp
      · rw [hpr] at E2
        simp only [List.nil_append, List.cons_append] at E2
        injection E2 with E1 _
        exact absurd (by rw [← List.mem_reverse, hpr, ← E1]; exact List.mem_cons_self _ _) hnl
    · rw [hbr] at E2
      simp only [List.nil_append, List.cons_append] at E2
      injection E2 with _ E3
      refine ⟨a, br'.reverse, ?_⟩
      have := congrArg List.reverse E3
      simp only [List.reverse_reverse, List.reverse_append] at this
      rw [this]

/-- internal/tasks Task: title, body, acceptance criteria, labels. -/
structure Task where
  title : GoStr
  body : GoStr
  acceptanceCriteria : List GoStr
  labels : List GoStr

/-- One rendered acceptance-criteria line: fmt.Sprintf("- %s\n", item). -/
def acBullet (item : GoStr) : GoStr := rOf "- " ++ item ++ [10]

/-- The loop of CreateIssue appending one bulleted line per criterion. -/
def acLines : List GoStr → GoStr
  | [] => []
  | item :: rest => acBullet item ++ acLines rest

/-- CreateIssue's acSection: empty when there are no criteria, else the
heading followed by the bulleted lines. -/
def acSection (criteria : List GoStr) : GoStr :=
  match criteria with
  | [] => []
  | _ :: _ => rOf "### Acceptance Criteria:\n" ++ acLines criteria

/-- CreateIssue's rendered issue body: fmt.Sprintf("%s\n\n%s", task.Body, acSection). -/
def issueFullBody (t : Task) : GoStr :=
  t.body ++ rOf "\n\n" ++ acSection t.acceptanceCriteria

/-- A task with no acceptance criteria whose own body text carries the heading. -/
def smuggledTask : Task :=
  { title := rOf "t", body := rOf "### Acceptance Criteria:\n- smuggled\n",
    acceptanceCriteria := [], labels := [] }

/-- C5 counterexample: this task has an empty acceptance-criteria sequence,
yet its rendered issue body does contain the heading (the task's own body
text carries it; the renderer embeds the body verbatim). -/
theorem issueBody_heading_counterexample :
    smuggledTask.acceptanceCriteria = [] ∧
      SubstrOf (rOf "### Acceptance Criteria:\n") (issueFullBody smuggledTask) := by
  refine ⟨rfl, ?_⟩
  rw [SubstrOf_iff_hasSubstr]
  decide

/-- C5 amended: for a task with an empty acceptance-criteria sequence,
CreateIssue appends no acceptance-criteria section at all — the rendered
body is exactly task.body ++ "\n\n" — so the heading appears only when
the task's own body text already carries it. -/
theorem issueBody_no_heading_when_empty (t : Task) (h : t.acceptanceCriteria = []) :
    issueFullBody t = t.body ++ rOf "\n\n" ∧
      (¬ SubstrOf (rOf "### Acceptance Criteria:") t.body →
        ¬ SubstrOf (rOf "### Acceptance Criteria:\n") (issueFullBody t)) := by
  have heq : issueFullBody t = t.body ++ rOf "\n\n" := by
    simp [issueFullBody, acSection, h]
  refine ⟨heq, fun hbody hfull => ?_⟩
  rw [heq] at hfull
  have hsplit : rOf "### Acceptance Criteria:\n" = rOf "### Acceptance Criteria:" ++ [10] := by
    decide
  rw [hsplit] at hfull
  have h1 : SubstrOf (rOf "### Acceptance Criteria:") (t.body ++ rOf "\n\n") :=
    substrOf_of_substrOf_append _ _ _ hfull
  have h2 : SubstrOf (rOf "### Acceptance Criteria:") t.body := by
    refine substrOf_body_of_append_newlines _ _ (by decide) (by decide) ?_
    have : rOf "\n\n" = [10, 10] := by decide
    rwa [this] at h1
  exact hbody h2

/-- C5 witness task: empty criteria, heading-free body. -/
def plainTask : Task :=
  { title := rOf "t", body := rOf "do it", acceptanceCriteria := [], labels := [] }

/-- C5 witness: the amended claim applied to a concrete task with no criteria. -/
theorem issueBody_no_heading_when_empty_witness :
    issueFullBody plainTask = plainTask.body ++ rOf "\n\n" ∧
      (¬ SubstrOf (rOf "### Acceptance Criteria:") plainTask.body →
        ¬ SubstrOf (rOf "### Acceptance Criteria:\n") (issueFullBody plainTask)) :=
  issueBody_no_heading_when_empty plainTask rfl

theorem acLines_eq_flatten (l : List GoStr) : acLines l = (l.map acBullet).flatten := by
  induction l with
  | nil => rfl
  | cons a tl ih => simp [acLines, ih]

theorem substrOf_acLines_of_mem (c : GoStr) (l : List GoStr) (h : c ∈ l) :
    SubstrOf (acBullet c) (acLines l) := by
  induction l with
  | nil => cases h
  | cons a tl ih =>
    rcases List.mem_cons.mp h with rfl | h'
    · exact ⟨[], acLines tl, by simp [acLines]⟩
    · exact substrOf_append_left _ _ _ (ih h')

/-- A task with one criterion whose body text already carries that bulleted line. -/
def bulletTask : Task :=
  { title := rOf "t", body := rOf "- x\n", acceptanceCriteria := [rOf "x"], labels := [] }

/-- C6 counterexample: this task has exactly one acceptance criterion, yet
its rendered issue body contains the line "- x\n" at two positions (the
task's own body carries one besides the rendered bullet), so the body does
not contain exactly one such line per criterion. -/
theorem issueBody_bullet_count_counterexample :
    bulletTask.acceptanceCriteria = [rOf "x"] ∧
      countOcc (acBullet (rOf "x")) (issueFullBody bulletTask) = 2 := by
  exact ⟨rfl, by decide⟩

/-- C6 amended: for a non-empty criteria sequence the rendered body is
task.body ++ "\n\n" ++ heading ++ the concatenation of one "- <criterion>\n"
line per criterion, in input order; in particular each criterion's bulleted
line occurs in the rendered body (the body may contain further copies of
such a line only when task.body itself carries them). -/
theorem issueBody_bullets_in_order (t : Task) (h : t.acceptanceCriteria ≠ []) :
    issueFullBody t =
        t.body ++ rOf "\n\n" ++ rOf "### Acceptance Criteria:\n" ++
          acLines t.acceptanceCriteria ∧
      acLines t.acceptanceCriteria = (t.acceptanceCriteria.map acBullet).flatten ∧
      ∀ c ∈ t.acceptanceCriteria, SubstrOf (acBullet c) (issueFullBody t) := by
  have heq : issueFullBody t =
      t.body ++ rOf "\n\n" ++ rOf "### Acceptance Criteria:\n" ++
        acLines t.acceptanceCriteria := by
    cases hc : t.acceptanceCriteria with
    | nil => exact absurd hc h
    | cons a tl => simp [issueFullBody, acSection, hc, List.append_assoc]
  refine ⟨heq, acLines_eq_flatten _, fun c hc => ?_⟩
  rw [heq]
  exact substrOf_append_left _ _ _ (substrOf_acLines_of_mem c _ hc)

/-- C6 witness task: two concrete criteria. -/
def twoCritTask : Task :=
  { title := rOf "t", body := rOf "do it",
    acceptanceCriteria := [rOf "first", rOf "second"], labels := [] }

/-- C6 witness: the amended claim applied to a concrete two-criteria task. -/
theorem issueBody_bullets_in_order_witness :
    issueFullBody twoCritTask =
        twoCritTask.body ++ rOf "\n\n" ++ rOf "### Acceptance Criteria:\n" ++
          acLines twoCritTask.acceptanceCriteria ∧
      acLines twoCritTask.acceptanceCriteria =
        (twoCritTask.acceptanceCriteria.map acBullet).flatten ∧
      ∀ c ∈ twoCritTask.acceptanceCriteria, SubstrOf (acBullet c) (issueFullBody twoCritTask) :=
  issueBody_bullets_in_order twoCritTask (by decide)

/-- Decimal rendering of a number, as Go's %d verb prints a status code. -/
def natRunes (n : Nat) : GoStr := (Nat.toDigits 10 n).map Char.toNat

/-- An HTTP response as the client reads it: status code and raw body. -/
structure HttpResp where
  status : Nat
  body : GoStr

/-- doGet's error result: on status ≥ 300 the error text
"GitHub API error (status %d): %s" with the status and the body. -/
def doGetErrText (resp : HttpResp) : Option GoStr :=
  if 300 ≤ resp.status then
    some (rOf "GitHub API error (status " ++ natRunes resp.status ++ rOf "): " ++ resp.body)
  else none

/-- doPost's error result, same format as doGet's. -/
def doPostErrText (resp : HttpResp) : Option GoStr :=
  if 300 ≤ resp.status then
    some (rOf "GitHub API error (status " ++ natRunes resp.status ++ rOf "): " ++ resp.body)
  else none

/-- doPatch's error result, same format as doGet's. -/
def doPatchErrText (resp : HttpResp) : Option GoStr :=
  if 300 ≤ resp.status then
    some (rOf "GitHub API error (status " ++ natRunes resp.status ++ rOf "): " ++ resp.body)
  else none

/-- CreateRepo's error result: on any status other than 201,
"failed to create repo: %s" with the body only. -/
def createRepoErrText (resp : HttpResp) : Option GoStr :=
  if resp.status ≠ 201 then some (rOf "failed to create repo: " ++ resp.body) else none

/-- CreateIssue's error result: on status ≥ 300, "issue creation failed: %s". -/
def createIssueErrText (resp : HttpResp) : Option GoStr :=
  if 300 ≤ resp.status then some (rOf "issue creation failed: " ++ resp.body) else none

/-- FetchIssue's error result: on any status other than 200, "GitHub API error: %s". -/
def fetchIssueErrText (resp : HttpResp) : Option GoStr :=
  if resp.status ≠ 200 then some (rOf "GitHub API error: " ++ resp.body) else none

/-- C4 counterexample: CreateRepo is a platform call, and on a 404 response
with body "Not Found" its error text is "failed to create repo: Not Found",
which does not include the status code 404. -/
theorem createRepoErr_omits_status_counterexample :
    createRepoErrText { status := 404, body := rOf "Not Found" } =
        some (rOf "failed to create repo: Not Found") ∧
      ¬ SubstrOf (natRunes 404) (rOf "failed to create repo: Not Found") := by
  refine ⟨by decide, ?_⟩
  rw [SubstrOf_iff_hasSubstr]
  decide

/-- C4 amended: on every response with status ≥ 300, each platform call
returns an error whose text includes the response body byte-for-byte; the
transport helpers doGet, doPost and doPatch additionally include the status
code in the text, while CreateRepo, CreateIssue and FetchIssue include only
the body. -/
theorem platformErr_includes_body (status : Nat) (body : GoStr) (h : 300 ≤ status) :
    (∃ e, doGetErrText ⟨status, body⟩ = some e ∧ SubstrOf body e ∧ SubstrOf (natRunes status) e) ∧
      (∃ e, doPostErrText ⟨status, body⟩ = some e ∧ SubstrOf body e ∧
        SubstrOf (natRunes status) e) ∧
      (∃ e, doPatchErrText ⟨status, body⟩ = some e ∧ SubstrOf body e ∧
        SubstrOf (natRunes status) e) ∧
      (∃ e, createRepoErrText ⟨status, body⟩ = some e ∧ SubstrOf body e) ∧
      (∃ e, createIssueErrText ⟨status, body⟩ = some e ∧ SubstrOf body e) ∧
      (∃ e, fetchIssueErrText ⟨status, body⟩ = some e ∧ SubstrOf body e) := by
  have h201 : status ≠ 201 := by omega
  have h200 : status ≠ 200 := by omega
  have hbody : ∀ pre : GoStr, SubstrOf body (pre ++ body) := fun pre =>
    ⟨pre, [], by simp⟩
  have hstat : ∀ pre mid : GoStr,
      SubstrOf (natRunes status) (pre ++ natRunes status ++ mid ++ body) := fun pre mid =>
    ⟨pre, mid ++ body, by simp [List.append_assoc]⟩
  refine ⟨⟨rOf "GitHub API error (status " ++ natRunes status ++ rOf "): " ++ body,
      by simp [doGetErrText, h], hbody _, hstat _ _⟩,
    ⟨rOf "GitHub API error (status " ++ natRunes status ++ rOf "): " ++ body,
      by simp [doPostErrText, h], hbody _, hstat _ _⟩,
    ⟨rOf "GitHub API error (status " ++ natRunes status ++ rOf "): " ++ body,
      by simp [doPatchErrText, h], hbody _, hstat _ _⟩,
    ⟨rOf "failed to create repo: " ++ body, by simp [createRepoErrText, h201], hbody _⟩,
    ⟨rOf "issue creation failed: " ++ body, by simp [createIssueErrText, h], hbody _⟩,
    ⟨rOf "GitHub API error: " ++ body, by simp [fetchIssueErrText, h200], hbody _⟩⟩

/-- C4 witness: the amended claim applied at status 404 and body "nope". -/
theorem platformErr_includes_body_witness :
    (∃ e, doGetErrText ⟨404, rOf "nope"⟩ = some e ∧ SubstrOf (rOf "nope") e ∧
      SubstrOf (natRunes 404) e) ∧
      (∃ e, doPostErrText ⟨404, rOf "nope"⟩ = some e ∧ SubstrOf (rOf "nope") e ∧
        SubstrOf (natRunes 404) e) ∧
      (∃ e, doPatchErrText ⟨404, rOf "nope"⟩ = some e ∧ SubstrOf (rOf "nope") e ∧
        SubstrOf (natRunes 404) e) ∧
      (∃ e, createRepoErrText ⟨404, rOf "nope"⟩ = some e ∧ SubstrOf (rOf "nope") e) ∧
      (∃ e, createIssueErrText ⟨404, rOf "nope"⟩ = some e ∧ SubstrOf (rOf "nope") e) ∧
      (∃ e, fetchIssueErrText ⟨404, rOf "nope"⟩ = some e ∧ SubstrOf (rOf "nope") e) :=
  platformErr_includes_body 404 (rOf "nope") (by decide)

/-- A JSON value at the granularity updateRef inspects: a string, or any
non-string value (number, bool, null, array, object). -/
inductive JVal where
  | str (s : GoStr)
  | nonStr
deriving DecidableEq

/-- First binding of a key in a decoded JSON object (keys are unique in a
Go map decoded by encoding/json). -/
def lookupKey (obj : List (GoStr × JVal)) (k : GoStr) : Option JVal :=
  match obj with
  | [] => none
  | (k', v) :: rest => if k = k' then some v else lookupKey rest k

/-- The string value of the "message" field of the decoded PATCH body:
errorResp["message"].(string) with its ok flag.  `parsed` is none when the
body failed to unmarshal as a JSON object. -/
def jsonMessage (parsed : Option (List (GoStr × JVal))) : Option GoStr :=
  match parsed with
  | none => none
  | some obj =>
    match lookupKey obj (rOf "message") with
    | some (JVal.str m) => some m
    | _ => none

/-- updateRef's result on the PATCH response: the doPatch error when the
status is ≥ 300; otherwise, when the body is non-empty and unmarshals as a
JSON object holding a non-empty string "message", the error
"GitHub API error: %s"; otherwise nil. -/
def updateRefError (resp : HttpResp) (parsed : Option (List (GoStr × JVal))) : Option GoStr :=
  match doPatchErrText resp with
  | some e => some e
  | none =>
    if 0 < resp.body.length then
      match jsonMessage parsed with
      | some m => if m = [] then none else some (rOf "GitHub API error: " ++ m)
      | none => none
    else none

/-- C10: whenever the PATCH response body (non-empty, as any JSON text is)
parses as a JSON object with a non-empty string field "message", updateRef
reports an error — even on a 2xx status; and updateRef returns nil only on a
status < 300 whose body is empty, is not a JSON object, or lacks a non-empty
string "message". -/
theorem updateRefError_message_spec (status : Nat) (body : GoStr)
    (parsed : Option (List (GoStr × JVal))) :
    (∀ m, jsonMessage parsed = some m → m ≠ [] → body ≠ [] →
      updateRefError ⟨status, body⟩ parsed ≠ none) ∧
      (updateRefError ⟨status, body⟩ parsed = none →
        status < 300 ∧
          (body = [] ∨ jsonMessage parsed = none ∨ jsonMessage parsed = some [])) := by
  constructor
  · intro m hm hne hbody
    unfold updateRefError
    cases hpatch : doPatchErrText ⟨status, body⟩ with
    | some e => simp
    | none =>
      have hlen : 0 < body.length := List.length_pos.mpr hbody
      simp [hlen, hm, hne]
  · intro hnil
    unfold updateRefError at hnil
    cases hpatch : doPatchErrText ⟨status, body⟩ with
    | some e => rw [hpatch] at hnil; simp at hnil
    | none =>
      have hst : status < 300 := by
        by_contra hge
        simp [doPatchErrText, Nat.le_of_not_lt hge] at hpatch
      refine ⟨hst, ?_⟩
      rw [hpatch] at hnil
      simp only at hnil
      by_cases hb : body = []
      · exact Or.inl hb
      · have hlen : 0 < body.length := List.length_pos.mpr hb
        rw [if_pos hlen] at hnil
        cases hm : jsonMessage parsed with
        | none => exact Or.inr (Or.inl rfl)
        | some m =>
          rw [hm] at hnil
          by_cases hme : m = []
          · exact Or.inr (Or.inr (by rw [hme]))
          · simp [hme] at hnil

/-- Decoded chat-completion reply as AskForTasks reads it: the contents of
the choices' messages, and the error object's message when one is present. -/
structure ChatReply where
  choices : List GoStr
  errorMsg : Option GoStr

/-- AskForTasks from the decoded ChatResponse on: a structured error object
is surfaced first, then an empty choices array, then the completion text is
parsed as the task array (the JSON parsing is abstracted as `parseTasks`). -/
def askForTasksResult (parseTasks : GoStr → Except GoStr (List Task)) (reply : ChatReply) :
    Except GoStr (List Task) :=
  match reply.errorMsg with
  | some m => Except.error (rOf "OpenAI error: " ++ m)
  | none =>
    match reply.choices with
    | [] => Except.error (rOf "no choices returned by OpenAI")
    | c :: _ =>
      match parseTasks c with
      | Except.error e => Except.error (rOf "failed to parse task JSON: " ++ e)
      | Except.ok tasks => Except.ok tasks

/-- A reply with zero choices that also carries a structured error object,
as the endpoint's own error replies do. -/
def errorReply : ChatReply := { choices := [], errorMsg := some (rOf "boom") }

/-- C8 counterexample: on a reply with zero choices that carries an error
object, AskForTasks fails with the remote-API error "OpenAI error: boom",
not with the empty-response error "no choices returned by OpenAI". -/
theorem askForTasks_error_first_counterexample :
    errorReply.choices = [] ∧
      askForTasksResult (fun _ => Except.error []) errorReply =
        Except.error (rOf "OpenAI error: boom") ∧
      rOf "OpenAI error: boom" ≠ rOf "no choices returned by OpenAI" := by
  exact ⟨rfl, rfl, by decide⟩

/-- C8 amended: on every reply with zero choices AskForTasks fails and
produces no task list; it fails with the empty-response error exactly when
the reply carries no structured error object (the error object is checked
first and wins otherwise). -/
theorem askForTasks_empty_choices_fails (parseTasks : GoStr → Except GoStr (List Task))
    (reply : ChatReply) (h : reply.choices = []) :
    (reply.errorMsg = none →
      askForTasksResult parseTasks reply = Except.error (rOf "no choices returned by OpenAI")) ∧
      ∃ e, askForTasksResult parseTasks reply = Except.error e := by
  constructor
  · intro hnone
    simp [askForTasksResult, hnone, h]
  · cases herr : reply.errorMsg with
    | some m => exact ⟨rOf "OpenAI error: " ++ m, by simp [askForTasksResult, herr]⟩
    | none =>
      exact ⟨rOf "no choices returned by OpenAI", by simp [askForTasksResult, herr, h]⟩

/-- C8 witness: the amended claim applied to a concrete zero-choice reply. -/
theorem askForTasks_empty_choices_fails_witness :
    ((ChatReply.mk [] none).errorMsg = none →
      askForTasksResult (fun _ => Except.error []) (ChatReply.mk [] none) =
        Except.error (rOf "no choices returned by OpenAI")) ∧
      ∃ e, askForTasksResult (fun _ => Except.error []) (ChatReply.mk [] none) =
        Except.error e :=
  askForTasks_empty_choices_fails (fun _ => Except.error []) (ChatReply.mk [] none) rfl

/-- The issue-filing loop of initCmd: every task is passed to CreateIssue
(modelled by the outcome oracle `createIssue`); a failure is only logged.
Returns the tasks attempted, in order, and the log lines. -/
def fileIssuesLoop (createIssue : Task → Option GoStr) : List Task → List Task × List GoStr
  | [] => ([], [])
  | t :: rest =>
    let log :=
      match createIssue t with
      | some e => [rOf "Failed to create issue: " ++ e]
      | none => []
    let r := fileIssuesLoop createIssue rest
    (t :: r.1, log ++ r.2)

/-- initCmd after configuration load: CreateRepo failure is fatal,
AskForTasks failure is fatal, then every returned task goes through the
issue-filing loop. -/
def initRun (repoErr : Option GoStr) (askRes : Except GoStr (List Task))
    (createIssue : Task → Option GoStr) : Except GoStr (List Task × List GoStr) :=
  match repoErr with
  | some e => Except.error e
  | none =>
    match askRes with
    | Except.error e => Except.error e
    | Except.ok tasks => Except.ok (fileIssuesLoop createIssue tasks)

/-- C9: whatever each CreateIssue call returns, the orchestrator attempts
every task of the returned list in order, logs one line per failing task,
and the run still succeeds — a single issue's failure aborts nothing. -/
theorem initRun_attempts_all_tasks (createIssue : Task → Option GoStr) (tasks : List Task) :
    initRun none (Except.ok tasks) createIssue =
      Except.ok (tasks,
        tasks.filterMap fun t => (createIssue t).map fun e => rOf "Failed to create issue: " ++ e) := by
  simp only [initRun]
  congr 1
  induction tasks with
  | nil => rfl
  | cons t rest ih =>
    simp only [fileIssuesLoop, ih, List.filterMap_cons]
    cases createIssue t <;> simp

/-- A file to commit: repository-relative path and raw content. -/
structure FileG where
  path : GoStr
  content : GoStr

/-- A platform-stored commit object: its tree and its parent commits. -/
structure CommitObj where
  tree : Nat
  parents : List Nat
deriving DecidableEq

/-- The git-data state of one repository on the platform: content-addressed
blobs, trees (path-to-blob maps), commits, the refs/heads/main pointer, and
the next fresh SHA (SHAs are abstracted as numbers handed out in order). -/
structure GState where
  blobs : List (Nat × GoStr)
  trees : List (Nat × List (GoStr × Nat))
  commits : List (Nat × CommitObj)
  mainRef : Option Nat
  next : Nat

/-- First binding of a SHA in an association list. -/
def lookupSha {α : Type} (l : List (Nat × α)) (k : Nat) : Option α :=
  match l with
  | [] => none
  | (k', v) :: rest => if k = k' then some v else lookupSha rest k

/-- A brand-new repository: no objects, no main branch. -/
def emptyGState : GState :=
  { blobs := [], trees := [], commits := [], mainRef := none, next := 0 }

/-- POST /git/blobs (createBlob): stores the content under a fresh SHA. -/
def srvCreateBlob (s : GState) (content : GoStr) : Nat × GState :=
  (s.next, { s with blobs := (s.next, content) :: s.blobs, next := s.next + 1 })

/-- The error text getBaseCommitAndTree receives from the ref probe of an
empty repository: doGet wraps the platform's 409 body, whose message is
"Git Repository is empty.". -/
def emptyRepoErr : GoStr := rOf "GitHub API error (status 409): Git Repository is empty."

/-- getBaseCommitAndTree: GET the main ref, then GET the commit it points
at; returns (commit SHA, its tree SHA), or the doGet error on an empty
repository. -/
def getBaseCommitAndTree (s : GState) : Except GoStr (Nat × Nat) :=
  match s.mainRef with
  | none => Except.error emptyRepoErr
  | some tip =>
    match lookupSha s.commits tip with
    | none => Except.error (rOf "could not get commit or tree SHA")
    | some c => Except.ok (tip, c.tree)

/-- The new tree's entries: the file's path layered onto the base tree's
entries (same path replaced, others untouched). -/
def layerEntry (entries : List (GoStr × Nat)) (p : GoStr) (b : Nat) : List (GoStr × Nat) :=
  (p, b) :: entries.filter (fun e => e.1 != p)

/-- POST /git/trees with base_tree (createTree): fresh tree layering the
file onto the base tree. -/
def srvCreateTree (s : GState) (baseTree : Nat) (p : GoStr) (b : Nat) : Nat × GState :=
  let base := (lookupSha s.trees baseTree).getD []
  (s.next, { s with trees := (s.next, layerEntry base p b) :: s.trees, next := s.next + 1 })

/-- POST /git/trees without base_tree (InitializeRepoWithReadme step 2):
fresh tree holding only the one file entry. -/
def srvCreateTreeNoBase (s : GState) (p : GoStr) (b : Nat) : Nat × GState :=
  (s.next, { s with trees := (s.next, [(p, b)]) :: s.trees, next := s.next + 1 })

/-- POST /git/commits (createCommit): fresh commit with the given tree and
parent list. -/
def srvCreateCommit (s : GState) (tree : Nat) (parents : List Nat) : Nat × GState :=
  (s.next, { s with commits := (s.next, CommitObj.mk tree parents) :: s.commits, next := s.next + 1 })

/-- POST /git/refs and PATCH /git/refs/heads/main (force) both leave main
pointing at the given commit SHA. -/
def srvSetMainRef (s : GState) (sha : Nat) : GState := { s with mainRef := some sha }

/-- InitializeRepoWithReadme translated: blob for the file, tree with no
base, commit with no parent, then create refs/heads/main at that commit. -/
def InitializeRepoWithReadme (s : GState) (file : FileG) : Except GoStr GState :=
  let rBlob := srvCreateBlob s file.content
  let rTree := srvCreateTreeNoBase rBlob.2 file.path rBlob.1
  let rCommit := srvCreateCommit rTree.2 rTree.1 []
  Except.ok (srvSetMainRef rCommit.2 rCommit.1)

/-- The steady-state loop of CreateBranchAndCommit: per file, blob; fetch
the branch tip commit and tree afresh; tree layered on the base; commit
whose parent is the fetched tip; force-update the main ref. -/
def commitFilesLoop (s : GState) : List FileG → Except GoStr GState
  | [] => Except.ok s
  | file :: rest =>
    let rBlob := srvCreateBlob s file.content
    match getBaseCommitAndTree rBlob.2 with
    | Except.error e => Except.error e
    | Except.ok base =>
      let rTree := srvCreateTree rBlob.2 base.2 file.path rBlob.1
      let rCommit := srvCreateCommit rTree.2 rTree.1 [base.1]
      commitFilesLoop (srvSetMainRef rCommit.2 rCommit.1) rest

/-- CreateBranchAndCommit translated: probe the branch; on the
"Git Repository is empty" error with at least one file, bootstrap with the
first file and return; otherwise run the steady-state loop over the files. -/
def CreateBranchAndCommit (s : GState) (files : List FileG) : Except GoStr GState :=
  match getBaseCommitAndTree s with
  | Except.error e =>
    match files, hasSubstr (rOf "Git Repository is empty") e with
    | file :: _, true => InitializeRepoWithReadme s file
    | _, _ => Except.error e
  | Except.ok _ => commitFilesLoop s files

/-- The commit list records, from `sha`, the linear parent chain `h`. -/
inductive HistoryFrom (cs : List (Nat × CommitObj)) : Nat → List Nat → Prop where
  | root {sha c} : lookupSha cs sha = some c → c.parents = [] → HistoryFrom cs sha [sha]
  | step {sha c p rest} : lookupSha cs sha = some c → c.parents = [p] →
      HistoryFrom cs p rest → HistoryFrom cs sha (sha :: rest)

/-- Every SHA recorded in or referenced by the commit list is below the
server's fresh-SHA counter. -/
def shaBound (s : GState) : Prop :=
  ∀ kc ∈ s.commits, kc.1 < s.next ∧ ∀ p ∈ kc.2.parents, p < s.next

/-- Whether the file's content is reachable from the main branch tip:
main points at a commit whose tree maps the file's path to a blob holding
the file's content. -/
def fileCommittedB (s : GState) (f : FileG) : Bool :=
  match s.mainRef with
  | none => false
  | some tip =>
    match lookupSha s.commits tip with
    | none => false
    | some c =>
      match lookupSha s.trees c.tree with
      | none => false
      | some entries =>
        entries.any fun e => e.1 == f.path && ((lookupSha s.blobs e.2).getD []) == f.content

theorem lookupSha_mem {α : Type} {l : List (Nat × α)} {k : Nat} {v : α}
    (h : lookupSha l k = some v) : (k, v) ∈ l := by
  induction l with
  | nil => simp [lookupSha] at h
  | cons kv rest ih =>
    obtain ⟨k', v'⟩ := kv
    by_cases hk : k = k'
    · subst hk
      simp [lookupSha] at h
      simp [h]
    · simp [lookupSha, hk] at h
      exact List.mem_cons_of_mem _ (ih h)

theorem historyFrom_lookup {cs : List (Nat × CommitObj)} {sha : Nat} {h : List Nat}
    (hh : HistoryFrom cs sha h) : ∃ c, lookupSha cs sha = some c := by
  cases hh with
  | root hl _ => exact ⟨_, hl⟩
  | step hl _ _ => exact ⟨_, hl⟩

/-- Adding a commit under a SHA at or above the bound leaves every
recorded history untouched. -/
theorem historyFrom_extend {cs : List (Nat × CommitObj)} {n k : Nat} {c : CommitObj}
    (hbound : ∀ kc ∈ cs, kc.1 < n ∧ ∀ p ∈ kc.2.parents, p < n) (hk : n ≤ k)
    {sha : Nat} {h : List Nat} (hh : HistoryFrom cs sha h) :
    HistoryFrom ((k, c) :: cs) sha h := by
  induction hh with
  | @root sha' c' hl hp =>
    have hlt : sha' < n := (hbound _ (lookupSha_mem hl)).1
    have hne : sha' ≠ k := by omega
    exact HistoryFrom.root (by simp [lookupSha, hne, hl]) hp
  | @step sha' c' p' rest' hl hp _ ih =>
    have hlt : sha' < n := (hbound _ (lookupSha_mem hl)).1
    have hne : sha' ≠ k := by omega
    exact HistoryFrom.step (by simp [lookupSha, hne, hl]) hp ih

/-- The first file of the counterexample batch, bootstrapped into the empty
repository. -/
def readmeFile : FileG := ⟨rOf "README.md", rOf "hello"⟩

/-- The second file of the counterexample batch, which never gets committed. -/
def secondFile : FileG := ⟨rOf "task.md", rOf "world"⟩

/-- The state InitializeRepoWithReadme leaves behind when run on the empty
repository with file f: one blob, one single-entry tree, one parent-less
commit, main pointing at it. -/
def bootState (f : FileG) : GState :=
  { blobs := [(0, f.content)]
    trees := [(1, [(f.path, 0)])]
    commits := [(2, CommitObj.mk 1 [])]
    mainRef := some 2
    next := 3 }

/-- C1 counterexample: invoked on the empty repository with a two-file
batch, CreateBranchAndCommit returns right after bootstrapping the first
file — the final state holds exactly one commit, the first file is
committed and the second file is not, so not all files of the batch end up
committed. -/
theorem cbc_empty_two_files_counterexample :
    CreateBranchAndCommit emptyGState [readmeFile, secondFile] =
        Except.ok (bootState readmeFile) ∧
      fileCommittedB (bootState readmeFile) readmeFile = true ∧
      fileCommittedB (bootState readmeFile) secondFile = false ∧
      (bootState readmeFile).commits.length = 1 := by
  refine ⟨rfl, by decide, by decide, rfl⟩

/-- C1 amended: on an empty repository with a batch of one or more files,
CreateBranchAndCommit returns the result of bootstrapping the first file
and nothing else: the subsequent files of the batch are not committed in
that invocation (the final state holds exactly the one bootstrap commit of
the first file). -/
theorem cbc_empty_multi_amended (f1 : FileG) (rest : List FileG) :
    CreateBranchAndCommit emptyGState (f1 :: rest) = InitializeRepoWithReadme emptyGState f1 ∧
      CreateBranchAndCommit emptyGState (f1 :: rest) = Except.ok (bootState f1) ∧
      (bootState f1).commits = [(2, CommitObj.mk 1 [])] ∧
      fileCommittedB (bootState f1) f1 = true := by
  refine ⟨rfl, rfl, rfl, ?_⟩
  simp [fileCommittedB, bootState, lookupSha]

/-- C2: on the brand-new empty repository with exactly one file,
CreateBranchAndCommit yields a branch whose history is exactly one commit
with no parent; on a repository whose branch tip has history h (N commits),
appending one file succeeds and yields a new tip whose commit's parent is
the previous tip, with history newSha :: h of length N + 1 (the base commit
and tree are re-fetched inside the loop before the file's commit). -/
theorem cbc_history_spec :
    (∀ f : FileG, CreateBranchAndCommit emptyGState [f] = Except.ok (bootState f) ∧
        (bootState f).mainRef = some 2 ∧ (bootState f).commits = [(2, CommitObj.mk 1 [])] ∧
        HistoryFrom (bootState f).commits 2 [2]) ∧
      (∀ (s : GState) (f : FileG) (tip : Nat) (h : List Nat),
        s.mainRef = some tip → HistoryFrom s.commits tip h → shaBound s →
        ∃ s' newSha, CreateBranchAndCommit s [f] = Except.ok s' ∧
          s'.mainRef = some newSha ∧
          lookupSha s'.commits newSha = some (CommitObj.mk (s.next + 1) [tip]) ∧
          HistoryFrom s'.commits newSha (newSha :: h) ∧
          (newSha :: h).length = h.length + 1) := by
  constructor
  · intro f
    refine ⟨rfl, rfl, rfl, ?_⟩
    exact HistoryFrom.root (c := CommitObj.mk 1 []) (by simp [bootState, lookupSha]) rfl
  · intro s f tip h href hh hb
    obtain ⟨c₀, hc₀⟩ := historyFrom_lookup hh
    refine ⟨{ blobs := (s.next, f.content) :: s.blobs
              trees := (s.next + 1,
                layerEntry ((lookupSha s.trees c₀.tree).getD []) f.path s.next) :: s.trees
              commits := (s.next + 2, CommitObj.mk (s.next + 1) [tip]) :: s.commits
              mainRef := some (s.next + 2)
              next := s.next + 3 }, s.next + 2, ?_, rfl, ?_, ?_, rfl⟩
    · simp only [CreateBranchAndCommit, getBaseCommitAndTree, href, hc₀, commitFilesLoop,
        srvCreateBlob, srvCreateTree, srvCreateCommit, srvSetMainRef]
    · simp [lookupSha]
    · refine HistoryFrom.step (c := CommitObj.mk (s.next + 1) [tip]) (by simp [lookupSha])
        rfl ?_
      exact historyFrom_extend hb (by omega) hh

end Agent
